import Mathlib

/-!
Shallow embedding of the MedMinder reminder/notification core
(`src/App.tsx`, `src/hooks/useNotifications.ts`, `src/types.ts`).

Conventions:
* Wall-clock instants are modelled by `LocalInstant` (local calendar day
  index plus milliseconds since local midnight); absolute instants used by
  the appointment logic are `Int` milliseconds on the same local axis.
* The JS `Set<string>` of already-notified medication ids is modelled as a
  `List String`; set membership is list membership (the tick only ever
  tests membership and inserts, so a list is membership-faithful).
* Each `setInterval` callback becomes a pure tick function from the state
  it reads to the state it writes plus the list of records it passed to
  the notification gateway's show operation during that tick.
-/

namespace MedMinder

/-- `Medication` record (`src/types.ts`). `time` is an `HH:MM` string. -/
structure Medication where
  id : String
  name : String
  dosage : String
  time : String
  isTaken : Bool
deriving DecidableEq

/-- `Appointment` record (`src/types.ts`). `date` is `YYYY-MM-DD`, `time`
is `HH:MM`. -/
structure Appointment where
  id : String
  date : String
  time : String
  specialty : String
  location : String
  notified : Bool
deriving DecidableEq

/-- `JournalEntry` record (`src/types.ts`). -/
structure JournalEntry where
  id : String
  date : String
  content : String
deriving DecidableEq

/-- `ArchivedFile` record (`src/types.ts`). -/
structure ArchivedFile where
  id : String
  name : String
  mimeType : String
  dataUrl : String
deriving DecidableEq

/-- A local wall-clock instant: local calendar day index (days since an
arbitrary epoch) and milliseconds since that day's local midnight.  This
mirrors a JS `Date` as used by the reminder logic, which only ever
compares instants on the same local time axis. -/
structure LocalInstant where
  day : Int
  msOfDay : Int
deriving DecidableEq

/-- Milliseconds-since-epoch value of a `LocalInstant`; `Date` comparison
(`now > medTime`) is comparison of these values. -/
def toMillis (t : LocalInstant) : Int :=
  t.day * 86400000 + t.msOfDay

/-- JS `String.split(sep)` on the character list of a string: splits at
every occurrence of `sep`, keeping empty segments. -/
def splitOnChar (sep : Char) : List Char → List (List Char)
  | [] => [[]]
  | c :: rest =>
    let r := splitOnChar sep rest
    if c = sep then [] :: r
    else
      match r with
      | [] => [[c]]
      | w :: ws => (c :: w) :: ws

/-- Value of a decimal digit character, `none` for a non-digit. -/
def digitVal (c : Char) : Option Nat :=
  if '0' ≤ c ∧ c ≤ '9' then some (c.toNat - '0'.toNat) else none

/-- Accumulate the decimal value of a digit string. -/
def parseNatAux : List Char → Nat → Option Nat
  | [], acc => some acc
  | c :: rest, acc =>
    match digitVal c with
    | none => none
    | some d => parseNatAux rest (acc * 10 + d)

/-- JS `Number` on a non-empty all-digit segment such as `"09"`. -/
def parseNatChars (cs : List Char) : Option Nat :=
  match cs with
  | [] => none
  | _ => parseNatAux cs 0

/-- `time.split(':').map(Number)` destructured to `[hours, minutes]`
(`src/App.tsx` line 219).  Faithful on the valid `HH:MM` strings the data
model guarantees. -/
def parseHM (s : String) : Nat × Nat :=
  match (splitOnChar ':' s.toList).map (fun p => (parseNatChars p).getD 0) with
  | h :: m :: _ => (h, m)
  | [h] => (h, 0)
  | [] => (0, 0)

/-- `const medTime = new Date(now); medTime.setHours(hours, minutes, 0, 0)`
(`src/App.tsx` lines 221-222): today's date at the given hour and minute. -/
def todayAt (now : LocalInstant) (h m : Nat) : LocalInstant :=
  { day := now.day, msOfDay := ((h : Int) * 3600 + (m : Int) * 60) * 1000 }

/-- `isMedicationDue` (`src/App.tsx` lines 217-224): false when taken,
otherwise true iff `now` strictly exceeds today's date at `med.time`. -/
def isMedicationDue (med : Medication) (now : LocalInstant) : Bool :=
  if med.isTaken then false
  else
    let hm := parseHM med.time
    let medTime := todayAt now hm.1 hm.2
    decide (toMillis now > toMillis medTime)

/-- Days since 1970-01-01 of a proleptic-Gregorian civil date, as the host
`Date` parser computes it for `YYYY-MM-DD` strings (standard
days-from-civil algorithm; `Int` division truncates toward zero exactly as
the reference algorithm requires). -/
def epochDays (y m d : Int) : Int :=
  let y2 := if m ≤ 2 then y - 1 else y
  let era := (if 0 ≤ y2 then y2 else y2 - 399) / 400
  let yoe := y2 - era * 400
  let mp := if m > 2 then m - 3 else m + 9
  let doy := (153 * mp + 2) / 5 + d - 1
  let doe := yoe * 365 + yoe / 4 - yoe / 100 + doy
  era * 146097 + doe - 719468

/-- Parse a `YYYY-MM-DD` date string into year, month, day. -/
def parseDate (s : String) : Int × Int × Int :=
  match (splitOnChar '-' s.toList).map
      (fun p => (((parseNatChars p).getD 0 : Nat) : Int)) with
  | [y, m, d] => (y, m, d)
  | _ => (0, 0, 0)

/-- Millisecond instant of `new Date(date + "T" + time)` (`src/App.tsx`
line 377): the appointment's calendar date at its `HH:MM` time, local. -/
def dateTimeMillis (date time : String) : Int :=
  let ymd := parseDate date
  let hm := parseHM time
  epochDays ymd.1 ymd.2.1 ymd.2.2 * 86400000
    + ((hm.1 : Int) * 3600 + (hm.2 : Int) * 60) * 1000

/-- The milliseconds in the 24-hour notification window
(`24 * 60 * 60 * 1000`, `src/App.tsx` line 373). -/
def twentyFourHoursMs : Int := 24 * 60 * 60 * 1000

/-- The upcoming filter of the appointment notification tick
(`src/App.tsx` lines 375-379): false when already notified, otherwise true
iff the appointment's instant is strictly after `now` and at most 24 hours
after `now`. -/
def isAppointmentUpcoming (appt : Appointment) (nowMs : Int) : Bool :=
  if appt.notified then false
  else
    let apptDateTime := dateTimeMillis appt.date appt.time
    decide (apptDateTime > nowMs) && decide (apptDateTime ≤ nowMs + twentyFourHoursMs)

/-- One firing of the medication notification interval (`src/App.tsx`
lines 230-241): filter the due, not-yet-notified medications, show a
notification for each, then add all their ids to the notified-set in one
batch.  Returns the medications passed to the gateway's show operation and
the updated notified-set. -/
def medicationTick (meds : List Medication) (notified : List String)
    (now : LocalInstant) : List Medication × List String :=
  let dueMeds := meds.filter
    (fun med => isMedicationDue med now && !(decide (med.id ∈ notified)))
  if dueMeds.isEmpty then (dueMeds, notified)
  else (dueMeds, notified ++ dueMeds.map (fun m => m.id))

/-- A sequence of medication poll ticks within one day-cycle: each tick
reads the medications collection current at that tick (the collection may
have been mutated between ticks) and threads the notified-set through.
Returns all medications shown across the run and the final notified-set. -/
def runMedicationTicks (notified : List String)
    (ticks : List (List Medication × LocalInstant)) :
    List Medication × List String :=
  match ticks with
  | [] => ([], notified)
  | (meds, now) :: rest =>
    let r := medicationTick meds notified now
    let r2 := runMedicationTicks r.2 rest
    (r.1 ++ r2.1, r2.2)

/-- One firing of the appointment notification interval (`src/App.tsx`
lines 371-396): filter the upcoming, not-yet-notified appointments, show a
notification for each, then set `notified := true` on exactly the records
whose id occurs among the matched ones, leaving the rest untouched.
Returns the appointments passed to show and the updated collection. -/
def appointmentTick (appts : List Appointment) (nowMs : Int) :
    List Appointment × List Appointment :=
  let upcoming := appts.filter (fun a => isAppointmentUpcoming a nowMs)
  if upcoming.isEmpty then (upcoming, appts)
  else
    (upcoming,
     appts.map (fun appt =>
       if (upcoming.find? (fun up => up.id == appt.id)).isSome
       then { appt with notified := true } else appt))

/-- A sequence of appointment poll ticks: threads the appointments
collection through, accumulating every appointment passed to show. -/
def runAppointmentTicks (appts : List Appointment) (nows : List Int) :
    List Appointment × List Appointment :=
  match nows with
  | [] => ([], appts)
  | t :: rest =>
    let r := appointmentTick appts t
    let r2 := runAppointmentTicks r.2 rest
    (r.1 ++ r2.1, r2.2)

/-- `toggleMedicationTaken` (`src/App.tsx` lines 275-279): flip `isTaken`
on the records whose id matches, keep every other record unchanged. -/
def toggleMedicationTaken (id : String) (meds : List Medication) :
    List Medication :=
  meds.map (fun med =>
    if med.id == id then { med with isTaken := !med.isTaken } else med)

/-- The transient tooltip UI state (`src/App.tsx` lines 82-92):
`medId = none` means no tooltip is open. -/
structure Tooltip where
  medId : Option String
  content : String
  isLoading : Bool
  posTop : Int
  posLeft : Int
deriving DecidableEq

/-- `handleCloseTooltip` (`src/App.tsx` lines 332-334). -/
def closedTooltip : Tooltip :=
  { medId := none, content := "", isLoading := false, posTop := 0, posLeft := 0 }

/-- The App component state the reminder engine touches: the medications
collection, the Scheduler's notified-set, the appointments collection and
the open tooltip. -/
structure AppState where
  medications : List Medication
  notifiedIds : List String
  appointments : List Appointment
  tooltip : Tooltip
deriving DecidableEq

/-- `deleteMedication` (`src/App.tsx` lines 281-286): drop the records with
the given id from the medications collection and, when the open tooltip is
keyed by that id, close it.  No other state is touched. -/
def deleteMedication (id : String) (s : AppState) : AppState :=
  { s with
    medications := s.medications.filter (fun med => !(med.id == id)),
    tooltip := if s.tooltip.medId = some id then closedTooltip else s.tooltip }

/-- The daily reset callback (`src/App.tsx` lines 201-208): clear every
medication's `isTaken` flag and empty the notified-set; nothing else is
touched. -/
def dailyReset (s : AppState) : AppState :=
  { s with
    medications := s.medications.map (fun med => { med with isTaken := false }),
    notifiedIds := [] }

/-- The host platform's notification permission states as held by the hook
(`NotificationPermission`); on a host without the notification capability
the hook never leaves `default`, so the unsupported case is modelled by
`default`. -/
inductive Permission where
  | default
  | denied
  | granted
deriving DecidableEq

/-- The options bag passed to the notification constructor. -/
structure NotifOptions where
  body : String
  requireInteraction : Bool
deriving DecidableEq

/-- An observable notification created by the gateway. -/
structure Notif where
  title : String
  options : NotifOptions
deriving DecidableEq

/-- `showNotification` (`src/hooks/useNotifications.ts` lines 26-30): when
permission is `granted`, construct a notification; otherwise do nothing.
`created` is the list of notifications observably created so far; the
function is total, so it neither errors nor throws in any state. -/
def showNotification (permission : Permission) (created : List Notif)
    (title : String) (options : NotifOptions) : List Notif :=
  if permission = Permission.granted then created ++ [{ title := title, options := options }]
  else created

/-- The per-medication show loop of the medication tick
(`dueMeds.forEach`, `src/App.tsx` lines 234-239) with a gateway whose show
operation may throw: shows are attempted in order, and a throw aborts the
loop (and with it the rest of the tick callback).  Returns the medications
for which show was invoked and whether the loop ran to completion. -/
def runShows (throws : String → Bool) :
    List Medication → List Medication × Bool
  | [] => ([], true)
  | m :: rest =>
    if throws m.id then ([m], false)
    else
      let r := runShows throws rest
      (m :: r.1, r.2)

/-- The medication tick with a possibly-throwing gateway: the single
batched `setNotifiedIds` call (`src/App.tsx` line 240) sits after the show
loop, so it runs only when no show call threw. -/
def medicationTickFallible (throws : String → Bool) (meds : List Medication)
    (notified : List String) (now : LocalInstant) :
    List Medication × List String :=
  let dueMeds := meds.filter
    (fun med => isMedicationDue med now && !(decide (med.id ∈ notified)))
  if dueMeds.isEmpty then ([], notified)
  else
    let r := runShows throws dueMeds
    (r.1, if r.2 then notified ++ dueMeds.map (fun m => m.id) else notified)

/-- A value held under one persistence key: absent, present but unparseable
(`JSON.parse` throws), or present and parsed. -/
inductive Blob (α : Type) where
  | absent
  | corrupt
  | stored (v : α)

/-- The four persistence keys (`medications` / `journalEntries` /
`archivedFiles` / `appointments`). -/
structure Store where
  medications : Blob (List Medication)
  journalEntries : Blob (List JournalEntry)
  archivedFiles : Blob (List ArchivedFile)
  appointments : Blob (List Appointment)

/-- The in-memory collections after the load effect ran; `logged` records
whether the catch handler ran (the failure was logged). -/
structure LoadedState where
  medications : List Medication
  journalEntries : List JournalEntry
  archivedFiles : List ArchivedFile
  appointments : List Appointment
  logged : Bool
deriving DecidableEq

/-- The collections before the load effect (`useState([])`). -/
def initialLoaded : LoadedState :=
  { medications := [], journalEntries := [], archivedFiles := [],
    appointments := [], logged := false }

/-- One key's read inside the shared `try` block, threading the state and a
"has thrown" flag: a thrown earlier step skips this one, an absent key
leaves the state unchanged, a corrupt blob throws, a stored value is
applied via `apply`. -/
def loadField {α : Type} (blob : Blob α) (apply : α → LoadedState → LoadedState)
    (st : LoadedState × Bool) : LoadedState × Bool :=
  match st with
  | (s, true) => (s, true)
  | (s, false) =>
    match blob with
    | Blob.absent => (s, false)
    | Blob.corrupt => (s, true)
    | Blob.stored v => (apply v s, false)

/-- The load effect (`src/App.tsx` lines 122-149): the four keys are read
in order — medications, journalEntries, archivedFiles, appointments —
inside one `try`; the `catch` logs the failure.  State setters invoked
before a throw keep their effect. -/
def loadFromStorage (store : Store) : LoadedState :=
  let r :=
    loadField store.appointments (fun v s => { s with appointments := v })
      (loadField store.archivedFiles (fun v s => { s with archivedFiles := v })
        (loadField store.journalEntries (fun v s => { s with journalEntries := v })
          (loadField store.medications (fun v s => { s with medications := v })
            (initialLoaded, false))))
  { r.1 with logged := r.2 }

/-! ### Theorems -/

/-- Claim C5: `isMedicationDue` returns false whenever the medication is
taken; otherwise it is true iff `now` strictly exceeds today's date at the
medication's `HH:MM` time (equivalently, iff the milliseconds-of-day of
`now` strictly exceed the scheduled time's milliseconds-of-day); in
particular a medication at `09:00`, not taken, is not due at `08:59:59`
and is due at `09:00:01` the same day. -/
theorem isMedicationDue_spec :
    ∀ (med : Medication) (now : LocalInstant),
      (med.isTaken = true → isMedicationDue med now = false)
      ∧ (med.isTaken = false →
          (isMedicationDue med now = true ↔
            now.msOfDay >
              (((parseHM med.time).1 : Int) * 3600
                + ((parseHM med.time).2 : Int) * 60) * 1000))
      ∧ (med.time = "09:00" → med.isTaken = false →
          isMedicationDue med { day := now.day, msOfDay := 32399000 } = false
          ∧ isMedicationDue med { day := now.day, msOfDay := 32401000 } = true) := by
  intro med now
  refine ⟨?_, ?_, ?_⟩
  · intro h
    simp [isMedicationDue, h]
  · intro h
    simp only [isMedicationDue, h, if_false, toMillis, todayAt,
      decide_eq_true_eq, Bool.false_eq_true]
    omega
  · intro ht h
    have hp : parseHM "09:00" = (9, 0) := by decide
    constructor
    · simp only [isMedicationDue, h, ht, hp, if_false, toMillis, todayAt,
        decide_eq_true_eq, Bool.false_eq_true, decide_eq_false_iff_not]
      omega
    · simp only [isMedicationDue, h, ht, hp, if_false, toMillis, todayAt,
        decide_eq_true_eq, Bool.false_eq_true]
      omega

/-- Witness for C5 at a concrete medication and day. -/
theorem isMedicationDue_spec_witness :
    isMedicationDue { id := "m", name := "x", dosage := "", time := "09:00", isTaken := false }
      { day := 0, msOfDay := 32399000 } = false
    ∧ isMedicationDue { id := "m", name := "x", dosage := "", time := "09:00", isTaken := false }
      { day := 0, msOfDay := 32401000 } = true :=
  (isMedicationDue_spec
    { id := "m", name := "x", dosage := "", time := "09:00", isTaken := false }
    { day := 0, msOfDay := 0 }).2.2 rfl rfl

/-- Claim C6: the appointment upcoming-check is false for a notified
appointment; otherwise it is true iff the appointment's absolute instant
is strictly after `now` and at most 24 hours after `now`; an appointment
whose instant has passed is never flagged; and at
`now = 2024-01-01T10:00`, an appointment at `2024-01-02T09:59` is flagged
while one at `2024-01-02T10:01` is not. -/
theorem isAppointmentUpcoming_spec :
    ∀ (appt : Appointment) (nowMs : Int),
      (appt.notified = true → isAppointmentUpcoming appt nowMs = false)
      ∧ (appt.notified = false →
          (isAppointmentUpcoming appt nowMs = true ↔
            dateTimeMillis appt.date appt.time > nowMs
            ∧ dateTimeMillis appt.date appt.time ≤ nowMs + 86400000))
      ∧ (dateTimeMillis appt.date appt.time ≤ nowMs →
          isAppointmentUpcoming appt nowMs = false)
      ∧ (isAppointmentUpcoming
          { id := "a1", date := "2024-01-02", time := "09:59",
            specialty := "s", location := "l", notified := false }
          (dateTimeMillis "2024-01-01" "10:00") = true
        ∧ isAppointmentUpcoming
          { id := "a2", date := "2024-01-02", time := "10:01",
            specialty := "s", location := "l", notified := false }
          (dateTimeMillis "2024-01-01" "10:00") = false) := by
  intro appt nowMs
  refine ⟨?_, ?_, ?_, by decide, by decide⟩
  · intro h
    simp [isAppointmentUpcoming, h]
  · intro h
    simp only [isAppointmentUpcoming, h, if_false, Bool.and_eq_true,
      decide_eq_true_eq, Bool.false_eq_true, twentyFourHoursMs]
    norm_num
  · intro h
    by_cases hn : appt.notified
    · simp [isAppointmentUpcoming, hn]
    · simp only [isAppointmentUpcoming, hn, if_false, Bool.false_eq_true,
        Bool.and_eq_false_iff, decide_eq_false_iff_not, not_lt]
      left
      exact h

/-- Witness for C6 at a concrete notified appointment and instant. -/
theorem isAppointmentUpcoming_spec_witness :
    isAppointmentUpcoming
      { id := "a3", date := "2024-01-02", time := "09:59",
        specialty := "s", location := "l", notified := true }
      (dateTimeMillis "2024-01-01" "10:00") = false :=
  (isAppointmentUpcoming_spec
    { id := "a3", date := "2024-01-02", time := "09:59",
      specialty := "s", location := "l", notified := true }
    (dateTimeMillis "2024-01-01" "10:00")).1 rfl

/-- Claim C8: the daily reset is idempotent — one application clears every
taken flag and empties the notified-set, and a second immediate
application leaves the state unchanged — and it never touches the
appointments (so no appointment's notified flag is reset). -/
theorem dailyReset_idempotent :
    ∀ s : AppState,
      dailyReset (dailyReset s) = dailyReset s
      ∧ (dailyReset s).medications.all (fun med => !med.isTaken) = true
      ∧ (dailyReset s).notifiedIds = []
      ∧ (dailyReset s).appointments = s.appointments := by
  intro s
  refine ⟨?_, ?_, rfl, rfl⟩
  · have h : ((fun med : Medication => { med with isTaken := false })
        ∘ (fun med : Medication => { med with isTaken := false }))
        = fun med : Medication => { med with isTaken := false } := by
      funext med
      rfl
    simp only [dailyReset, List.map_map, h]
  · simp only [dailyReset, List.all_eq_true]
    intro x hx
    rcases List.mem_map.mp hx with ⟨med, _, rfl⟩
    rfl

/-- Claim C9: the gateway's show operation leaves the set of created
notifications unchanged whenever permission is not `granted` (the model is
a total function, so it neither errors nor throws in that case), and when
permission is `granted` it creates exactly one notification with the given
title and options. -/
theorem showNotification_gating :
    ∀ (p : Permission) (created : List Notif) (title : String)
      (options : NotifOptions),
      (p ≠ Permission.granted →
        showNotification p created title options = created)
      ∧ (p = Permission.granted →
        showNotification p created title options
          = created ++ [{ title := title, options := options }]) := by
  intro p created title options
  constructor
  · intro h
    simp [showNotification, h]
  · intro h
    simp [showNotification, h]

/-- Witness for C9: with permission `denied` nothing is created; with
permission `granted` the notification is created. -/
theorem showNotification_gating_witness :
    showNotification Permission.denied [] "t" { body := "b", requireInteraction := true } = []
    ∧ showNotification Permission.granted [] "t" { body := "b", requireInteraction := true }
      = [{ title := "t", options := { body := "b", requireInteraction := true } }] :=
  ⟨(showNotification_gating Permission.denied []
      "t" { body := "b", requireInteraction := true }).1 (by decide),
   (showNotification_gating Permission.granted []
      "t" { body := "b", requireInteraction := true }).2 rfl⟩

/-- Claim C10: `toggleMedicationTaken` is an involution, and a single
application preserves every record's id, name, dosage and time (and the
order and length of the collection) while flipping `isTaken` exactly on
the records whose id matches. -/
theorem toggleMedicationTaken_involution :
    ∀ (meds : List Medication) (mid : String),
      toggleMedicationTaken mid (toggleMedicationTaken mid meds) = meds
      ∧ (toggleMedicationTaken mid meds).map
          (fun m => (m.id, m.name, m.dosage, m.time))
        = meds.map (fun m => (m.id, m.name, m.dosage, m.time))
      ∧ (toggleMedicationTaken mid meds).map (fun m => m.isTaken)
        = meds.map (fun m => if m.id == mid then !m.isTaken else m.isTaken) := by
  intro meds mid
  refine ⟨?_, ?_, ?_⟩
  · have h : ((fun med : Medication =>
        if med.id == mid then { med with isTaken := !med.isTaken } else med)
        ∘ (fun med : Medication =>
        if med.id == mid then { med with isTaken := !med.isTaken } else med))
        = fun med : Medication => med := by
      funext med
      by_cases hc : med.id = mid
      · subst hc
        simp [Bool.not_not]
      · simp [hc]
    simp only [toggleMedicationTaken, List.map_map, h, List.map_id']
  · have h : ((fun m : Medication => (m.id, m.name, m.dosage, m.time))
        ∘ (fun med : Medication =>
        if med.id == mid then { med with isTaken := !med.isTaken } else med))
        = fun m : Medication => (m.id, m.name, m.dosage, m.time) := by
      funext med
      by_cases hc : med.id = mid
      · simp [hc]
      · simp [hc]
    simp only [toggleMedicationTaken, List.map_map, h]
  · have h : ((fun m : Medication => m.isTaken)
        ∘ (fun med : Medication =>
        if med.id == mid then { med with isTaken := !med.isTaken } else med))
        = fun m : Medication => if m.id == mid then !m.isTaken else m.isTaken := by
      funext med
      by_cases hc : med.id = mid
      · simp [hc]
      · simp [hc]
    simp only [toggleMedicationTaken, List.map_map, h]

/-- A stored state in which the medications blob is corrupt while the
other three keys hold non-empty stored collections. -/
def corruptMedsStore : Store :=
  { medications := Blob.corrupt,
    journalEntries := Blob.stored
      [{ id := "j1", date := "2024-01-01T08:00:00.000Z", content := "good day" }],
    archivedFiles := Blob.stored
      [{ id := "f1", name := "scan.pdf", mimeType := "application/pdf", dataUrl := "data:" }],
    appointments := Blob.stored
      [{ id := "a1", date := "2024-01-02", time := "09:00",
         specialty := "Ped", location := "Hosp", notified := false }] }

/-- Claim C3 counterexample: with the `medications` blob corrupt, the
other three keys do not load their stored contents — the single shared
error boundary aborts the remaining reads, so the stored journal entries,
files and appointments all come up empty (the failure is logged). -/
theorem loadFromStorage_not_isolated :
    (loadFromStorage corruptMedsStore).journalEntries = []
    ∧ (loadFromStorage corruptMedsStore).journalEntries
        ≠ [{ id := "j1", date := "2024-01-01T08:00:00.000Z", content := "good day" }]
    ∧ (loadFromStorage corruptMedsStore).archivedFiles = []
    ∧ (loadFromStorage corruptMedsStore).appointments = []
    ∧ (loadFromStorage corruptMedsStore).logged = true :=
  ⟨rfl, by decide, rfl, rfl, rfl⟩

/-- Claim C3 (amended): the four keys are read in the fixed order
medications, journalEntries, archivedFiles, appointments inside one error
boundary.  Absence of exactly one key still loads the other three with
their stored contents and logs nothing; a corrupt blob is logged, not
fatal, loads the keys read before it normally, and leaves the keys after
it (and itself) at their initial empty values — in particular corrupting
the appointments blob, the last key, still lets the other three load. -/
theorem loadFromStorage_order_spec :
    ∀ (ms : List Medication) (js : List JournalEntry)
      (fs : List ArchivedFile) (ps : List Appointment),
      (loadFromStorage
        ⟨Blob.absent, Blob.stored js, Blob.stored fs, Blob.stored ps⟩
        = { medications := [], journalEntries := js, archivedFiles := fs,
            appointments := ps, logged := false })
      ∧ (loadFromStorage
        ⟨Blob.stored ms, Blob.absent, Blob.stored fs, Blob.stored ps⟩
        = { medications := ms, journalEntries := [], archivedFiles := fs,
            appointments := ps, logged := false })
      ∧ (loadFromStorage
        ⟨Blob.stored ms, Blob.stored js, Blob.absent, Blob.stored ps⟩
        = { medications := ms, journalEntries := js, archivedFiles := [],
            appointments := ps, logged := false })
      ∧ (loadFromStorage
        ⟨Blob.stored ms, Blob.stored js, Blob.stored fs, Blob.absent⟩
        = { medications := ms, journalEntries := js, archivedFiles := fs,
            appointments := [], logged := false })
      ∧ (loadFromStorage
        ⟨Blob.corrupt, Blob.stored js, Blob.stored fs, Blob.stored ps⟩
        = { medications := [], journalEntries := [], archivedFiles := [],
            appointments := [], logged := true })
      ∧ (loadFromStorage
        ⟨Blob.stored ms, Blob.corrupt, Blob.stored fs, Blob.stored ps⟩
        = { medications := ms, journalEntries := [], archivedFiles := [],
            appointments := [], logged := true })
      ∧ (loadFromStorage
        ⟨Blob.stored ms, Blob.stored js, Blob.corrupt, Blob.stored ps⟩
        = { medications := ms, journalEntries := js, archivedFiles := [],
            appointments := [], logged := true })
      ∧ (loadFromStorage
        ⟨Blob.stored ms, Blob.stored js, Blob.stored fs, Blob.corrupt⟩
        = { medications := ms, journalEntries := js, archivedFiles := fs,
            appointments := [], logged := true }) :=
  fun _ _ _ _ => ⟨rfl, rfl, rfl, rfl, rfl, rfl, rfl, rfl⟩

/-- The medications a tick passes to show are exactly the due,
not-yet-notified ones. -/
theorem medicationTick_fst (meds : List Medication) (notified : List String)
    (now : LocalInstant) :
    (medicationTick meds notified now).1
      = meds.filter
          (fun med => isMedicationDue med now && !(decide (med.id ∈ notified))) := by
  simp only [medicationTick]
  split <;> rfl

/-- Membership in the post-tick notified-set: previous members plus the
ids of the medications shown in the tick. -/
theorem medicationTick_snd_mem (meds : List Medication) (notified : List String)
    (now : LocalInstant) (x : String) :
    x ∈ (medicationTick meds notified now).2
      ↔ x ∈ notified ∨ x ∈ (medicationTick meds notified now).1.map (fun m => m.id) := by
  rw [medicationTick_fst]
  simp only [medicationTick]
  split
  · rename_i he
    rw [List.isEmpty_iff] at he
    simp [he]
  · simp [List.mem_append]

/-- A medication shown by a tick was not yet in the notified-set. -/
theorem medicationTick_shows_not_notified (meds : List Medication)
    (notified : List String) (now : LocalInstant) (med : Medication) :
    med ∈ (medicationTick meds notified now).1 → med.id ∉ notified := by
  rw [medicationTick_fst]
  intro h
  have hp := (List.mem_filter.mp h).2
  simp only [Bool.and_eq_true, Bool.not_eq_true', decide_eq_false_iff_not] at hp
  exact hp.2

/-- Every medication shown during a run of ticks belongs to the
medications collection read by one of the ticks. -/
theorem runMedicationTicks_shows_mem
    (ticks : List (List Medication × LocalInstant)) (med : Medication) :
    ∀ notified, med ∈ (runMedicationTicks notified ticks).1 →
      ∃ p ∈ ticks, med ∈ p.1 := by
  induction ticks with
  | nil =>
    intro notified h
    simp [runMedicationTicks] at h
  | cons t rest ih =>
    intro notified h
    obtain ⟨meds, now⟩ := t
    simp only [runMedicationTicks, List.mem_append] at h
    rcases h with h | h
    · refine ⟨(meds, now), List.mem_cons_self _ _, ?_⟩
      rw [medicationTick_fst] at h
      exact (List.mem_filter.mp h).1
    · obtain ⟨p, hp, hmp⟩ := ih _ h
      exact ⟨p, List.mem_cons_of_mem _ hp, hmp⟩

/-- No medication shown during a run of ticks had its id in the
notified-set the run started from. -/
theorem runMedicationTicks_shows_not_notified
    (ticks : List (List Medication × LocalInstant)) (med : Medication) :
    ∀ notified, med ∈ (runMedicationTicks notified ticks).1 → med.id ∉ notified := by
  induction ticks with
  | nil =>
    intro notified h
    simp [runMedicationTicks] at h
  | cons t rest ih =>
    intro notified h hmem
    obtain ⟨meds, now⟩ := t
    simp only [runMedicationTicks, List.mem_append] at h
    rcases h with h | h
    · exact medicationTick_shows_not_notified meds notified now med h hmem
    · exact ih (medicationTick meds notified now).2 h
        ((medicationTick_snd_mem meds notified now med.id).mpr (Or.inl hmem))

/-- Across any run of ticks in one day-cycle, each id is shown at most
once (given the unique-id invariant on each tick's collection). -/
theorem runMedicationTicks_count_le_one
    (ticks : List (List Medication × LocalInstant)) (mid : String) :
    ∀ notified, (∀ p ∈ ticks, (p.1.map (fun m => m.id)).Nodup) →
      (((runMedicationTicks notified ticks).1).map (fun m => m.id)).count mid ≤ 1 := by
  induction ticks with
  | nil =>
    intro notified _
    simp [runMedicationTicks]
  | cons t rest ih =>
    intro notified hnd
    obtain ⟨meds, now⟩ := t
    simp only [runMedicationTicks, List.map_append, List.count_append]
    by_cases hmem : mid ∈ (medicationTick meds notified now).1.map (fun m => m.id)
    · have hsub : ((medicationTick meds notified now).1.map (fun m => m.id)).Sublist
          (meds.map (fun m => m.id)) := by
        rw [medicationTick_fst]
        exact List.Sublist.map _ (List.filter_sublist meds)
      have hnd1 : ((medicationTick meds notified now).1.map (fun m => m.id)).Nodup :=
        List.Nodup.sublist hsub (hnd (meds, now) (List.mem_cons_self _ _))
      have h1 : ((medicationTick meds notified now).1.map (fun m => m.id)).count mid ≤ 1 :=
        List.nodup_iff_count_le_one.mp hnd1 mid
      have h2 : (((runMedicationTicks (medicationTick meds notified now).2 rest).1).map
          (fun m => m.id)).count mid = 0 := by
        rw [List.count_eq_zero]
        intro hc
        obtain ⟨med, hmed, rfl⟩ := List.mem_map.mp hc
        exact runMedicationTicks_shows_not_notified rest med _ hmed
          ((medicationTick_snd_mem meds notified now med.id).mpr (Or.inr hmem))
      omega
    · have h1 : ((medicationTick meds notified now).1.map (fun m => m.id)).count mid = 0 :=
        List.count_eq_zero.mpr hmem
      have h2 := ih (medicationTick meds notified now).2
        (fun p hp => hnd p (List.mem_cons_of_mem _ hp))
      omega

/-- Claim C1: within one day-cycle (no daily reset in between), a tick
notifies only medications whose id is absent from the notified-set and
adds the ids of all medications it matched to the notified-set; hence
across every sequence of poll ticks, each medication id is passed to the
gateway's show operation at most once (given the unique-id invariant on
each tick's collection). -/
theorem medication_dedup_invariant :
    ∀ (notified : List String) (ticks : List (List Medication × LocalInstant)),
      (∀ (meds : List Medication) (now : LocalInstant),
        (∀ med ∈ (medicationTick meds notified now).1, med.id ∉ notified)
        ∧ ∀ x : String,
            x ∈ (medicationTick meds notified now).2 ↔
              x ∈ notified ∨ x ∈ (medicationTick meds notified now).1.map (fun m => m.id))
      ∧ ((∀ p ∈ ticks, (p.1.map (fun m => m.id)).Nodup) →
          ∀ mid : String,
            (((runMedicationTicks notified ticks).1).map (fun m => m.id)).count mid ≤ 1) := by
  intro notified ticks
  refine ⟨fun meds now =>
    ⟨fun med h => medicationTick_shows_not_notified meds notified now med h,
     fun x => medicationTick_snd_mem meds notified now x⟩, ?_⟩
  intro hnd mid
  exact runMedicationTicks_count_le_one ticks mid notified hnd

/-- A sample medication scheduled at `09:00`, not yet taken. -/
def medEx : Medication :=
  { id := "m1", name := "Ibuprofeno", dosage := "600mg", time := "09:00",
    isTaken := false }

/-- Two consecutive poll instants at which `medEx` is due and un-taken. -/
def ticksEx : List (List Medication × LocalInstant) :=
  [([medEx], { day := 0, msOfDay := 32460000 }),
   ([medEx], { day := 0, msOfDay := 32490000 })]

/-- Witness for C1: over two consecutive ticks at which the medication
stays due and un-taken, its id is shown at most once. -/
theorem medication_dedup_invariant_witness :
    (((runMedicationTicks [] ticksEx).1).map (fun m => m.id)).count "m1" ≤ 1 :=
  (medication_dedup_invariant [] ticksEx).2 (by decide) "m1"

/-- An app state in which `medEx` exists, a tick has already added its id
to the notified-set, and a tooltip keyed by it is open. -/
def stEx : AppState :=
  { medications := [medEx], notifiedIds := ["m1"], appointments := [],
    tooltip := { medId := some "m1", content := "info", isLoading := false,
                 posTop := 10, posLeft := 20 } }

/-- Claim C2 counterexample: deleting medication `"m1"` removes the record
and closes its tooltip, but the id is NOT purged from the Scheduler's
notified-set — `"m1"` is still in `notifiedIds` after the delete. -/
theorem deleteMedication_keeps_notified_id :
    (deleteMedication "m1" stEx).medications = []
    ∧ (deleteMedication "m1" stEx).notifiedIds = ["m1"]
    ∧ "m1" ∈ (deleteMedication "m1" stEx).notifiedIds := by
  refine ⟨by decide, by decide, by decide⟩

/-- Claim C2 (amended): deleting a medication by id removes exactly that
record from the medications collection and closes the tooltip when it is
keyed by that id, while leaving the notified-set (and the appointments)
unchanged; nevertheless, as long as no medication with the deleted id is
present in the collection read by later ticks, no due computation or show
call references the deleted id again. -/
theorem deleteMedication_spec :
    ∀ (mid : String) (s : AppState),
      (∀ med : Medication,
        med ∈ (deleteMedication mid s).medications
          ↔ med ∈ s.medications ∧ med.id ≠ mid)
      ∧ (deleteMedication mid s).notifiedIds = s.notifiedIds
      ∧ (deleteMedication mid s).appointments = s.appointments
      ∧ (deleteMedication mid s).tooltip.medId ≠ some mid
      ∧ ∀ (ticks : List (List Medication × LocalInstant)),
          (∀ p ∈ ticks, ∀ med ∈ p.1, med.id ≠ mid) →
          ∀ med ∈ (runMedicationTicks (deleteMedication mid s).notifiedIds ticks).1,
            med.id ≠ mid := by
  intro mid s
  refine ⟨?_, rfl, rfl, ?_, ?_⟩
  · intro med
    simp [deleteMedication, List.mem_filter]
  · by_cases h : s.tooltip.medId = some mid
    · simp [deleteMedication, h, closedTooltip]
    · simp [deleteMedication, h]
  · intro ticks hticks med hmed
    obtain ⟨p, hp, hmp⟩ := runMedicationTicks_shows_mem ticks med _ hmed
    exact hticks p hp med hmp

/-- A second sample medication, distinct from `medEx`. -/
def medEx2 : Medication :=
  { id := "m2", name := "Paracetamol", dosage := "", time := "08:00",
    isTaken := false }

/-- Witness for C2 (amended) after deleting `"m1"`: the notified-set is
untouched, the tooltip is no longer keyed by `"m1"`, and the medication
shown by a later tick over the remaining collection is not `"m1"`. -/
theorem deleteMedication_spec_witness :
    (deleteMedication "m1" stEx).notifiedIds = stEx.notifiedIds
    ∧ (deleteMedication "m1" stEx).tooltip.medId ≠ some "m1"
    ∧ medEx2.id ≠ "m1" :=
  ⟨(deleteMedication_spec "m1" stEx).2.1,
   (deleteMedication_spec "m1" stEx).2.2.2.1,
   (deleteMedication_spec "m1" stEx).2.2.2.2
     [([medEx2], { day := 0, msOfDay := 32460000 })] (by decide)
     medEx2 (by decide)⟩

/-- If no show call throws, the show loop completes. -/
theorem runShows_all_ok (throws : String → Bool) :
    ∀ l : List Medication,
      (∀ med ∈ l, throws med.id = false) → (runShows throws l).2 = true := by
  intro l
  induction l with
  | nil => intro _; rfl
  | cons m rest ih =>
    intro h
    have hm := h m (List.mem_cons_self _ _)
    simp only [runShows, hm]
    exact ih fun med hmed => h med (List.mem_cons_of_mem _ hmed)

/-- If some show call throws, the show loop aborts. -/
theorem runShows_exists_throw (throws : String → Bool) :
    ∀ l : List Medication,
      (∃ med ∈ l, throws med.id = true) → (runShows throws l).2 = false := by
  intro l
  induction l with
  | nil =>
    intro h
    obtain ⟨med, hmem, _⟩ := h
    exact absurd hmem (List.not_mem_nil med)
  | cons m rest ih =>
    intro h
    by_cases hm : throws m.id
    · simp [runShows, hm]
    · obtain ⟨med, hmem, hthrow⟩ := h
      rcases List.mem_cons.mp hmem with rfl | hmem
      · exact absurd hthrow (by simp [hm])
      · simp only [runShows, Bool.not_eq_true] at hm
        simp only [runShows, hm]
        exact ih ⟨med, hmem, hthrow⟩

/-- Claim C7 counterexample: with one due medication whose show call
throws, the tick aborts before the batched set update — `"m1"` was matched
as due yet is absent from the notified-set afterwards. -/
theorem medicationTickFallible_throw_skips_update :
    isMedicationDue medEx { day := 0, msOfDay := 32460000 } = true
    ∧ (medicationTickFallible (fun i => i == "m1") [medEx] []
        { day := 0, msOfDay := 32460000 }).2 = []
    ∧ "m1" ∉ (medicationTickFallible (fun i => i == "m1") [medEx] []
        { day := 0, msOfDay := 32460000 }).2 := by
  refine ⟨by decide, by decide, by decide⟩

/-- Claim C7 (amended): within one tick, the matched ids are added to the
notified-set in one batch after the show loop; when no show call throws,
the notified-set afterwards is exactly its previous contents plus every id
matched as due at evaluation time; when some show call for a matched
medication throws, the set update does not run and the notified-set is
unchanged. -/
theorem medicationTickFallible_spec :
    ∀ (throws : String → Bool) (meds : List Medication)
      (notified : List String) (now : LocalInstant),
      ((∀ med ∈ (medicationTick meds notified now).1, throws med.id = false) →
        (medicationTickFallible throws meds notified now).2
          = notified ++ (medicationTick meds notified now).1.map (fun m => m.id))
      ∧ ((∃ med ∈ (medicationTick meds notified now).1, throws med.id = true) →
        (medicationTickFallible throws meds notified now).2 = notified) := by
  intro throws meds notified now
  constructor
  · intro h
    rw [medicationTick_fst] at h ⊢
    simp only [medicationTickFallible]
    split
    · rename_i he
      rw [List.isEmpty_iff] at he
      simp [he]
    · rw [runShows_all_ok throws _ h]
      simp
  · intro h
    rw [medicationTick_fst] at h
    simp only [medicationTickFallible]
    split
    · rfl
    · rw [runShows_exists_throw throws _ h]
      simp

/-- Witness for C7 (amended) with a gateway that never throws: the
notified-set after the tick is the previous set plus the matched id. -/
theorem medicationTickFallible_spec_witness :
    (medicationTickFallible (fun _ => false) [medEx] []
      { day := 0, msOfDay := 32460000 }).2
      = [] ++ (medicationTick [medEx] [] { day := 0, msOfDay := 32460000 }).1.map
          (fun m => m.id) :=
  (medicationTickFallible_spec (fun _ => false) [medEx] []
    { day := 0, msOfDay := 32460000 }).1 (by decide)

/-- Setting `notified := true` on an already-notified appointment leaves
the record unchanged. -/
theorem notified_update_eq (a : Appointment) (h : a.notified = true) :
    { a with notified := true } = a := by
  cases a
  simp only at h
  simp [h]

/-- A function on appointments that either keeps a record unchanged or
only sets its notified flag — the only per-record effect an appointment
tick can have. -/
def FlagOnly (g : Appointment → Appointment) : Prop :=
  ∀ a, g a = a ∨ g a = { a with notified := true }

theorem flagOnly_id : FlagOnly fun a => a := fun _ => Or.inl rfl

theorem flagOnly_comp {g h : Appointment → Appointment}
    (hg : FlagOnly g) (hh : FlagOnly h) : FlagOnly fun a => h (g a) := by
  intro a
  show h (g a) = a ∨ h (g a) = { a with notified := true }
  rcases hg a with h1 | h1 <;> rw [h1]
  · exact hh a
  · rcases hh { a with notified := true } with h2 | h2 <;> rw [h2]
    · right
      rfl
    · right
      rfl

theorem FlagOnly.id_eq {g : Appointment → Appointment} (hg : FlagOnly g)
    (a : Appointment) : (g a).id = a.id := by
  rcases hg a with h | h <;> rw [h]

theorem FlagOnly.fix_of_notified {g : Appointment → Appointment}
    (hg : FlagOnly g) (a : Appointment) (h : a.notified = true) : g a = a := by
  rcases hg a with h1 | h1
  · exact h1
  · rw [h1, notified_update_eq a h]

theorem FlagOnly.notified_false {g : Appointment → Appointment}
    (hg : FlagOnly g) (a : Appointment) (h : (g a).notified = false) :
    a.notified = false := by
  rcases hg a with h1 | h1
  · rw [← h1]
    exact h
  · rw [h1] at h
    simp at h

/-- The appointments a tick passes to show are exactly the upcoming,
not-yet-notified ones. -/
theorem appointmentTick_fst (appts : List Appointment) (nowMs : Int) :
    (appointmentTick appts nowMs).1
      = appts.filter (fun a => isAppointmentUpcoming a nowMs) := by
  simp only [appointmentTick]
  split <;> rfl

/-- One appointment tick maps a flag-only function over the collection. -/
theorem appointmentTick_snd_map (appts : List Appointment) (nowMs : Int) :
    ∃ g, FlagOnly g ∧ (appointmentTick appts nowMs).2 = appts.map g := by
  simp only [appointmentTick]
  split
  · exact ⟨fun a => a, flagOnly_id, (List.map_id' appts).symm⟩
  · refine ⟨fun appt =>
      if ((appts.filter (fun a => isAppointmentUpcoming a nowMs)).find?
          (fun up => up.id == appt.id)).isSome
      then { appt with notified := true } else appt, ?_, rfl⟩
    intro a
    dsimp only
    split
    · right
      rfl
    · left
      rfl

/-- A run of appointment ticks maps a flag-only function over the initial
collection. -/
theorem runAppointmentTicks_snd_map (nows : List Int) :
    ∀ appts, ∃ g, FlagOnly g ∧ (runAppointmentTicks appts nows).2 = appts.map g := by
  induction nows with
  | nil =>
    intro appts
    exact ⟨fun a => a, flagOnly_id, (List.map_id' appts).symm⟩
  | cons t rest ih =>
    intro appts
    obtain ⟨h1, hh1, he1⟩ := appointmentTick_snd_map appts t
    obtain ⟨g2, hg2, he2⟩ := ih (appointmentTick appts t).2
    refine ⟨fun a => g2 (h1 a), flagOnly_comp hh1 hg2, ?_⟩
    simp only [runAppointmentTicks]
    rw [he2, he1, List.map_map]
    rfl

/-- Every appointment shown during a run shares its id with an initial
record whose notified flag was false. -/
theorem runAppointmentTicks_shows_origin (nows : List Int) :
    ∀ appts s, s ∈ (runAppointmentTicks appts nows).1 →
      ∃ a ∈ appts, s.id = a.id ∧ a.notified = false := by
  induction nows with
  | nil =>
    intro appts s h
    simp [runAppointmentTicks] at h
  | cons t rest ih =>
    intro appts s h
    simp only [runAppointmentTicks, List.mem_append] at h
    rcases h with h | h
    · rw [appointmentTick_fst] at h
      obtain ⟨hmem, hup⟩ := List.mem_filter.mp h
      have hn : s.notified = false := by
        by_contra hcon
        rw [Bool.not_eq_false] at hcon
        simp [isAppointmentUpcoming, hcon] at hup
      exact ⟨s, hmem, rfl, hn⟩
    · obtain ⟨a', ha'mem, hid, hn⟩ := ih (appointmentTick appts t).2 s h
      obtain ⟨g, hg, he⟩ := appointmentTick_snd_map appts t
      rw [he] at ha'mem
      obtain ⟨a, hamem, rfl⟩ := List.mem_map.mp ha'mem
      refine ⟨a, hamem, ?_, hg.notified_false a hn⟩
      rw [hid, hg.id_eq a]

/-- A record whose notified flag is already true survives every later tick
unchanged and is still present in the final collection. -/
theorem runAppointmentTicks_mem_final (nows : List Int) (appts : List Appointment)
    (b : Appointment) (hb : b ∈ appts) (hn : b.notified = true) :
    b ∈ (runAppointmentTicks appts nows).2 := by
  obtain ⟨g, hg, he⟩ := runAppointmentTicks_snd_map nows appts
  rw [he]
  exact List.mem_map.mpr ⟨b, hb, hg.fix_of_notified b hn⟩

/-- Under the unique-id invariant, a tick sets `notified := true` on
exactly the records it matched as upcoming and keeps every other record
untouched. -/
theorem appointmentTick_snd_eq (appts : List Appointment) (nowMs : Int)
    (hnd : (appts.map (fun a => a.id)).Nodup) :
    (appointmentTick appts nowMs).2
      = appts.map (fun a =>
          if isAppointmentUpcoming a nowMs then { a with notified := true } else a) := by
  simp only [appointmentTick]
  split
  · rename_i he
    rw [List.isEmpty_iff, List.filter_eq_nil_iff] at he
    have hall : ∀ a ∈ appts,
        (if isAppointmentUpcoming a nowMs then { a with notified := true } else a) = a := by
      intro a ha
      have hfa := he a ha
      rw [Bool.not_eq_true] at hfa
      simp [hfa]
    rw [List.map_congr_left hall, List.map_id']
  · refine List.map_congr_left (fun a ha => ?_)
    have hcond : ((appts.filter (fun x => isAppointmentUpcoming x nowMs)).find?
        (fun up => up.id == a.id)).isSome = isAppointmentUpcoming a nowMs := by
      cases hup : isAppointmentUpcoming a nowMs with
      | true =>
        exact List.find?_isSome.mpr ⟨a, List.mem_filter.mpr ⟨ha, hup⟩, by simp⟩
      | false =>
        apply Bool.eq_false_iff.mpr
        intro hsome
        obtain ⟨u, hu, hbeq⟩ := List.find?_isSome.mp hsome
        obtain ⟨humem, huup⟩ := List.mem_filter.mp hu
        have hid : u.id = a.id := by simpa using hbeq
        have huv : u = a := List.inj_on_of_nodup_map hnd humem ha hid
        rw [huv] at huup
        simp [hup] at huup
    rw [hcond]

/-- Claim C4: under the unique-id invariant a tick sets `notified := true`
on exactly the subset of appointments it matched as upcoming and leaves
every other record untouched; an appointment whose notified flag is true
survives every subsequent run of poll ticks unchanged (the flag is never
set back to false), and no subsequent tick passes an appointment with its
id to the show operation. -/
theorem appointment_one_shot :
    ∀ (appts : List Appointment) (nowMs : Int) (nows : List Int) (b : Appointment),
      ((appts.map (fun a => a.id)).Nodup →
        (appointmentTick appts nowMs).2
          = appts.map (fun a =>
              if isAppointmentUpcoming a nowMs then { a with notified := true } else a))
      ∧ (b ∈ appts → b.notified = true →
          b ∈ (runAppointmentTicks appts nows).2
          ∧ ((appts.map (fun a => a.id)).Nodup →
              ∀ s ∈ (runAppointmentTicks appts nows).1, s.id ≠ b.id)) := by
  intro appts nowMs nows b
  refine ⟨fun hnd => appointmentTick_snd_eq appts nowMs hnd, fun hb hn => ⟨?_, ?_⟩⟩
  · exact runAppointmentTicks_mem_final nows appts b hb hn
  · intro hnd s hs hid
    obtain ⟨a, hamem, hsid, han⟩ := runAppointmentTicks_shows_origin nows appts s hs
    have hab : a = b := by
      refine List.inj_on_of_nodup_map hnd hamem hb ?_
      rw [← hsid]
      exact hid
    rw [hab] at han
    simp [hn] at han

/-- A sample appointment whose notified flag is already true. -/
def apptN : Appointment :=
  { id := "aN", date := "2024-01-01", time := "09:00",
    specialty := "s", location := "l", notified := true }

/-- A sample un-notified appointment inside the 24-hour window of
`2024-01-01T10:00`. -/
def apptU : Appointment :=
  { id := "aU", date := "2024-01-02", time := "09:00",
    specialty := "s", location := "l", notified := false }

/-- Witness for C4: over a tick at `2024-01-01T10:00`, the already
notified appointment survives unchanged in the final collection and no
show call carries its id. -/
theorem appointment_one_shot_witness :
    apptN ∈ (runAppointmentTicks [apptN, apptU]
      [dateTimeMillis "2024-01-01" "10:00"]).2
    ∧ ¬ ∃ s ∈ (runAppointmentTicks [apptN, apptU]
        [dateTimeMillis "2024-01-01" "10:00"]).1, s.id = apptN.id := by
  refine ⟨((appointment_one_shot [apptN, apptU] 0
      [dateTimeMillis "2024-01-01" "10:00"] apptN).2 (by decide) rfl).1, ?_⟩
  rintro ⟨s, hs, hid⟩
  exact ((appointment_one_shot [apptN, apptU] 0
      [dateTimeMillis "2024-01-01" "10:00"] apptN).2 (by decide) rfl).2
    (by decide) s hs hid

end MedMinder
